import Mathlib

/-!
Verification of the dredger-swiper data-cache core: the snapshot cache
(DataCacheService) and the cached-stream coordinator (useCachedSSE).
Timestamps and durations are integers in milliseconds, mirroring the
JavaScript Date.now clock.  The JS Map is embedded as an association list
with unique keys: set replaces an existing binding in place, delete removes
the binding.
-/

namespace DredgerSwiper

/-- One cache entry: payload, capture timestamp (ms), stored stale flag. -/
structure CacheEntry (T : Type) where
  data : T
  timestamp : Int
  isStale : Bool
  deriving DecidableEq, Repr

/-- The cache is a keyed store, embedded as an association list. -/
abbrev Cache (T : Type) : Type := List (String × CacheEntry T)

/-- Expiry threshold: 5 minutes in milliseconds. -/
def CACHE_DURATION : Int := 5 * 60 * 1000

/-- Staleness threshold: 30 minutes in milliseconds. -/
def STALE_DURATION : Int := 30 * 60 * 1000

/-- Lookup of the entry stored under a key, mirroring Map.get. -/
def findEntry {T : Type} (c : Cache T) (k : String) : Option (CacheEntry T) :=
  match c with
  | [] => none
  | (k', e) :: rest => if k' = k then some e else findEntry rest k

/-- Map.set: replace the binding in place if the key is present, else append. -/
def mapSet {T : Type} (c : Cache T) (k : String) (e : CacheEntry T) : Cache T :=
  match c with
  | [] => [(k, e)]
  | (k', e') :: rest => if k' = k then (k, e) :: rest else (k', e') :: mapSet rest k e

/-- Map.delete: remove the binding for the key, if any. -/
def mapDelete {T : Type} (c : Cache T) (k : String) : Cache T :=
  match c with
  | [] => []
  | (k', e') :: rest => if k' = k then rest else (k', e') :: mapDelete rest k

/-- In-place mutation of the entry object stored under a key. -/
def mapUpdate {T : Type} (c : Cache T) (k : String) (f : CacheEntry T → CacheEntry T) :
    Cache T :=
  match c with
  | [] => []
  | (k', e') :: rest =>
    if k' = k then (k', f e') :: rest else (k', e') :: mapUpdate rest k f

namespace DataCacheService

/-- DataCacheService.set: store the payload with the current timestamp and a
cleared stale flag. -/
def set {T : Type} (c : Cache T) (k : String) (v : T) (now : Int) : Cache T :=
  mapSet c k { data := v, timestamp := now, isStale := false }

/-- DataCacheService.get: absent key returns null; otherwise mark the entry
stale when its age exceeds the staleness threshold, then delete it and return
null when its age exceeds the expiry threshold, else return the payload.
Returns the result together with the cache after these side effects. -/
def get {T : Type} (c : Cache T) (k : String) (now : Int) : Option T × Cache T :=
  match findEntry c k with
  | none => (none, c)
  | some entry =>
    let age := now - entry.timestamp
    let c1 := if age > STALE_DURATION
              then mapUpdate c k (fun e => { e with isStale := true })
              else c
    if age > CACHE_DURATION then (none, mapDelete c1 k) else (some entry.data, c1)

/-- DataCacheService.has: an entry exists and its age is at most the expiry
threshold.  Reads only; no side effect on the cache. -/
def has {T : Type} (c : Cache T) (k : String) (now : Int) : Bool :=
  match findEntry c k with
  | none => false
  | some e => decide (now - e.timestamp ≤ CACHE_DURATION)

/-- DataCacheService.isStale: an entry exists and its age exceeds the
staleness threshold.  Computed from age only; the stored flag is not read. -/
def isStale {T : Type} (c : Cache T) (k : String) (now : Int) : Bool :=
  match findEntry c k with
  | none => false
  | some e => decide (now - e.timestamp > STALE_DURATION)

/-- DataCacheService.clear: remove one entry. -/
def clear {T : Type} (c : Cache T) (k : String) : Cache T :=
  mapDelete c k

/-- DataCacheService.clearAll: remove every entry. -/
def clearAll {T : Type} (_c : Cache T) : Cache T := []

/-- DataCacheService.markStale: force the stored stale flag to true on an
existing entry; no-op when the key is absent. -/
def markStale {T : Type} (c : Cache T) (k : String) : Cache T :=
  match findEntry c k with
  | none => c
  | some _ => mapUpdate c k (fun e => { e with isStale := true })

/-- JavaScript Math.round(x / 1000) on an integer number of milliseconds:
floor of x / 1000 + 1 / 2, with ties rounding toward positive infinity. -/
def roundDiv1000 (x : Int) : Int := Int.fdiv (2 * x + 1000) 2000

/-- One row of the diagnostic snapshot returned by getStats. -/
structure StatsEntry where
  key : String
  age : Int
  isStale : Bool
  deriving DecidableEq, Repr

/-- The diagnostic snapshot returned by getStats. -/
structure Stats where
  size : Nat
  keys : List String
  entries : List StatsEntry
  deriving DecidableEq, Repr

/-- DataCacheService.getStats: read-only snapshot listing every entry with its
rounded age in seconds and its stored stale flag (not recomputed from age). -/
def getStats {T : Type} (c : Cache T) (now : Int) : Stats :=
  { size := c.length
    keys := c.map Prod.fst
    entries := c.map (fun p =>
      { key := p.1
        age := roundDiv1000 (now - p.2.timestamp)
        isStale := p.2.isStale }) }

end DataCacheService

/-! ### Cached-stream coordinator (useCachedSSE) -/

/-- The slice of the useCachedSSE hook state that the coordinator claims
concern: the shared cache plus the local isCached, isStale and initialLoad
flags held by the hook. -/
structure CoordState (T : Type) where
  cache : Cache T
  isCachedFlag : Bool
  isStaleFlag : Bool
  initialLoad : Bool
  deriving DecidableEq

/-- The guard of shouldShowLoading: url falsy or url.trim() empty.  For a
string this holds exactly when every character is whitespace (an empty string
is falsy and trivially all-whitespace; trimming yields the empty string
exactly when no non-whitespace character remains). -/
def urlBlank (url : String) : Bool :=
  url.toList.all (fun ch => ch.isWhitespace)

/-- shouldShowLoading from useCachedSSE, with its inputs made explicit:
the feed url, the hook's initialLoad flag, the precomputed cache checks
(dataCache.has and dataCache.isStale on the cache key), the forceRefresh
option, and the underlying subscription's isConnecting and loading flags. -/
def shouldShowLoading (url : String) (initialLoad cachedExists forceRefresh
    cachedIsStale isConnecting sseLoading : Bool) : Bool :=
  if urlBlank url then false
  else if initialLoad && !cachedExists then true
  else if forceRefresh then true
  else if cachedExists && cachedIsStale && isConnecting then true
  else if cachedExists && !cachedIsStale then false
  else sseLoading

/-- The loading resolution exactly as the claim words it, with the first
guard reading the url as literally empty.  Written from the claim, not from
the source, to be compared against shouldShowLoading. -/
def claimedLoadingOrder (url : String) (initialLoad cachedExists forceRefresh
    cachedIsStale isConnecting sseLoading : Bool) : Bool :=
  if url = "" then false
  else if initialLoad && !cachedExists then true
  else if forceRefresh then true
  else if cachedExists && cachedIsStale && isConnecting then true
  else if cachedExists && !cachedIsStale then false
  else sseLoading

/-- The data resolution of useCachedSSE: the latest live message when present
and not under forced refresh, else the cached payload when present and not
under forced refresh, else null. -/
def resolveData {T : Type} (sseData cachedData : Option T) (forceRefresh : Bool) :
    Option T :=
  if sseData.isSome && !forceRefresh then sseData
  else if cachedData.isSome && !forceRefresh then cachedData
  else none

/-- refreshData from useCachedSSE: mark the cache entry stale, set the local
stale flag, and re-arm initial-load tracking.  Nothing else is touched. -/
def refreshData {T : Type} (s : CoordState T) (key : String) : CoordState T :=
  { s with
    cache := DataCacheService.markStale s.cache key
    isStaleFlag := true
    initialLoad := true }

/-- The coordinator's onError handler: it only forwards the error to the
caller's onError callback; the hook state, and in particular the cache, is
not touched on this path. -/
def coordOnError {T E A : Type} (onError : E → A) (s : CoordState T) (err : E) :
    CoordState T × A :=
  (s, onError err)

/-! ### Helper lemmas about the map embedding -/

theorem findEntry_mapSet_self {T : Type} (c : Cache T) (k : String) (e : CacheEntry T) :
    findEntry (mapSet c k e) k = some e := by
  induction c with
  | nil => simp [mapSet, findEntry]
  | cons hd tl ih =>
    obtain ⟨k', e'⟩ := hd
    by_cases hk : k' = k
    · simp [mapSet, findEntry, hk]
    · simp [mapSet, findEntry, hk, ih]

theorem findEntry_mapUpdate_self {T : Type} {c : Cache T} {k : String}
    {e : CacheEntry T} (f : CacheEntry T → CacheEntry T)
    (hfind : findEntry c k = some e) :
    findEntry (mapUpdate c k f) k = some (f e) := by
  induction c with
  | nil => simp [findEntry] at hfind
  | cons hd tl ih =>
    obtain ⟨k', e'⟩ := hd
    by_cases hk : k' = k
    · simp [findEntry, hk] at hfind
      simp [mapUpdate, findEntry, hk, hfind]
    · simp [findEntry, hk] at hfind
      simp [mapUpdate, findEntry, hk, ih hfind]

theorem mapUpdate_map_fst {T : Type} (c : Cache T) (k : String)
    (f : CacheEntry T → CacheEntry T) :
    (mapUpdate c k f).map Prod.fst = c.map Prod.fst := by
  induction c with
  | nil => simp [mapUpdate]
  | cons hd tl ih =>
    obtain ⟨k', e'⟩ := hd
    by_cases hk : k' = k
    · simp [mapUpdate, hk]
    · simp [mapUpdate, hk, ih]

theorem findEntry_eq_none_of_not_mem {T : Type} {c : Cache T} {k : String}
    (h : k ∉ c.map Prod.fst) : findEntry c k = none := by
  induction c with
  | nil => simp [findEntry]
  | cons hd tl ih =>
    obtain ⟨k', e'⟩ := hd
    simp only [List.map_cons, List.mem_cons] at h
    push_neg at h
    have hne : ¬k' = k := fun hc => h.1 hc.symm
    simp [findEntry, hne, ih h.2]

theorem findEntry_mapDelete_self {T : Type} {c : Cache T} {k : String}
    (hnd : (c.map Prod.fst).Nodup) : findEntry (mapDelete c k) k = none := by
  induction c with
  | nil => simp [mapDelete, findEntry]
  | cons hd tl ih =>
    obtain ⟨k', e'⟩ := hd
    simp only [List.map_cons, List.nodup_cons] at hnd
    by_cases hk : k' = k
    · subst hk
      simpa [mapDelete] using findEntry_eq_none_of_not_mem hnd.1
    · simp [mapDelete, findEntry, hk, ih hnd.2]

theorem mem_of_findEntry {T : Type} {c : Cache T} {k : String} {e : CacheEntry T}
    (hfind : findEntry c k = some e) : (k, e) ∈ c := by
  induction c with
  | nil => simp [findEntry] at hfind
  | cons hd tl ih =>
    obtain ⟨k', e'⟩ := hd
    by_cases hk : k' = k
    · simp [findEntry, hk] at hfind
      simp [hk, hfind]
    · simp [findEntry, hk] at hfind
      simp [ih hfind]

theorem get_of_found {T : Type} {c : Cache T} {k : String} {e : CacheEntry T}
    (now : Int) (hfind : findEntry c k = some e) :
    DataCacheService.get c k now =
      (if now - e.timestamp > CACHE_DURATION then
        (none,
          mapDelete
            (if now - e.timestamp > STALE_DURATION then
              mapUpdate c k (fun x => { x with isStale := true })
            else c) k)
      else
        (some e.data,
          if now - e.timestamp > STALE_DURATION then
            mapUpdate c k (fun x => { x with isStale := true })
          else c)) := by
  simp only [DataCacheService.get, hfind]

/-! ### Claim theorems -/

/-- Claim C6: immediately after set(k, v), at age 0, get(k) returns v. -/
theorem set_then_get {T : Type} (c : Cache T) (k : String) (v : T) (now : Int) :
    (DataCacheService.get (DataCacheService.set c k v now) k now).1 = some v := by
  have h : findEntry (DataCacheService.set c k v now) k =
      some { data := v, timestamp := now, isStale := false } :=
    findEntry_mapSet_self c k _
  rw [get_of_found now h]
  norm_num [CACHE_DURATION]

/-- Claim C2: on an entry whose age exceeds the staleness threshold, get
returns absent and removes the entry (expiry fires first, since the expiry
threshold is below the staleness threshold); consequently get never returns
a payload whose age exceeds the staleness threshold. -/
theorem get_stale_branch_unreachable {T : Type} (c : Cache T) (k : String)
    (now : Int) (e : CacheEntry T)
    (hnd : (c.map Prod.fst).Nodup)
    (hfind : findEntry c k = some e) :
    (now - e.timestamp > STALE_DURATION →
      (DataCacheService.get c k now).1 = none ∧
        findEntry (DataCacheService.get c k now).2 k = none) ∧
    ((DataCacheService.get c k now).1.isSome = true →
      now - e.timestamp ≤ STALE_DURATION) := by
  rw [get_of_found now hfind]
  constructor
  · intro hst
    have hc : now - e.timestamp > CACHE_DURATION :=
      lt_trans (by norm_num [CACHE_DURATION, STALE_DURATION]) hst
    rw [if_pos hc, if_pos hst]
    refine ⟨rfl, ?_⟩
    apply findEntry_mapDelete_self
    rw [mapUpdate_map_fst]
    exact hnd
  · intro hsome
    by_contra hst
    push_neg at hst
    have hc : now - e.timestamp > CACHE_DURATION :=
      lt_trans (by norm_num [CACHE_DURATION, STALE_DURATION]) hst
    rw [if_pos hc] at hsome
    simp at hsome

/-- Witness for claim C2 at a one-entry cache, age 1800001 ms. -/
theorem get_stale_branch_unreachable_witness :
    (DataCacheService.get ([("k", ⟨7, 0, false⟩)] : Cache Nat) "k" 1800001).1 = none :=
  ((get_stale_branch_unreachable ([("k", ⟨7, 0, false⟩)] : Cache Nat) "k" 1800001
      ⟨7, 0, false⟩ (by decide) rfl).1 (by decide)).1

/-- Claim C3: on an entry whose age exceeds the expiry threshold, get returns
absent and physically removes the entry, so any subsequent has on that key is
false. -/
theorem get_expired_removes {T : Type} (c : Cache T) (k : String) (now : Int)
    (e : CacheEntry T) (hnd : (c.map Prod.fst).Nodup)
    (hfind : findEntry c k = some e)
    (hage : now - e.timestamp > CACHE_DURATION) :
    (DataCacheService.get c k now).1 = none ∧
      findEntry (DataCacheService.get c k now).2 k = none ∧
      ∀ later : Int, DataCacheService.has (DataCacheService.get c k now).2 k later = false := by
  rw [get_of_found now hfind, if_pos hage]
  have hnd1 : (((if now - e.timestamp > STALE_DURATION then
      mapUpdate c k (fun x => { x with isStale := true }) else c)).map Prod.fst).Nodup := by
    split
    · rw [mapUpdate_map_fst]; exact hnd
    · exact hnd
  have hdel := findEntry_mapDelete_self (k := k) hnd1
  exact ⟨rfl, hdel, fun later => by simp [DataCacheService.has, hdel]⟩

/-- Witness for claim C3 at a one-entry cache, age 300001 ms. -/
theorem get_expired_removes_witness :
    DataCacheService.has
      (DataCacheService.get ([("k", ⟨7, 0, false⟩)] : Cache Nat) "k" 300001).2 "k" 400000 = false :=
  (get_expired_removes ([("k", ⟨7, 0, false⟩)] : Cache Nat) "k" 300001
      ⟨7, 0, false⟩ (by decide) rfl (by decide)).2.2 400000

/-- Claim C9: has(k) is true exactly when an entry exists with age at most the
expiry threshold, and an entry is never removed by the read-only checks: any
stored entry, however old, is still listed by getStats. -/
theorem has_iff_and_lingering {T : Type} (c : Cache T) (k : String) (now : Int) :
    (DataCacheService.has c k now = true ↔
      ∃ e, findEntry c k = some e ∧ now - e.timestamp ≤ CACHE_DURATION) ∧
    (∀ e, findEntry c k = some e → k ∈ (DataCacheService.getStats c now).keys) := by
  constructor
  · unfold DataCacheService.has
    cases hfind : findEntry c k with
    | none => simp
    | some e => simp
  · intro e hfind
    have hmem := mem_of_findEntry hfind
    show k ∈ c.map Prod.fst
    exact List.mem_map.mpr ⟨(k, e), hmem, rfl⟩

/-- Witness for claim C9: an entry aged far past expiry is still listed. -/
theorem has_iff_and_lingering_witness :
    "k" ∈ (DataCacheService.getStats ([("k", ⟨7, 0, false⟩)] : Cache Nat) 10000000).keys :=
  (has_iff_and_lingering ([("k", ⟨7, 0, false⟩)] : Cache Nat) "k" 10000000).2 ⟨7, 0, false⟩ rfl

/-- Claim C10: getStats reports the stored stale flag of each entry, not a
value recomputed from age; so an entry past the staleness threshold whose
flag was never set is reported with isStale false while the isStale check
returns true. -/
theorem getStats_reports_stored_flag {T : Type} (c : Cache T) (k : String)
    (e : CacheEntry T) (now : Int)
    (hfind : findEntry c k = some e)
    (hflag : e.isStale = false)
    (hage : now - e.timestamp > STALE_DURATION) :
    ({ key := k, age := DataCacheService.roundDiv1000 (now - e.timestamp),
        isStale := false } : DataCacheService.StatsEntry)
        ∈ (DataCacheService.getStats c now).entries ∧
      DataCacheService.isStale c k now = true := by
  constructor
  · have hmem := mem_of_findEntry hfind
    refine List.mem_map.mpr ⟨(k, e), hmem, ?_⟩
    simp [hflag]
  · simp only [DataCacheService.isStale, hfind]
    exact decide_eq_true hage

/-- Witness for claim C10 at a one-entry cache whose flag is false, age
1800001 ms. -/
theorem getStats_reports_stored_flag_witness :
    ({ key := "k", age := DataCacheService.roundDiv1000 (1800001 - 0),
        isStale := false } : DataCacheService.StatsEntry)
        ∈ (DataCacheService.getStats ([("k", ⟨7, 0, false⟩)] : Cache Nat) 1800001).entries ∧
      DataCacheService.isStale ([("k", ⟨7, 0, false⟩)] : Cache Nat) "k" 1800001 = true :=
  getStats_reports_stored_flag ([("k", ⟨7, 0, false⟩)] : Cache Nat) "k"
    ⟨7, 0, false⟩ 1800001 rfl rfl (by decide)

/-- Claim C1, counterexample: on a fresh entry (age 0), markStale sets the
stored flag, yet the subsequent isStale check still returns false, because
isStale is computed from age alone and never reads the flag.  This refutes
the claim that markStale makes isStale true regardless of age. -/
theorem markStale_not_reflected_in_isStale :
    (findEntry ([("k", ⟨7, 0, false⟩)] : Cache Nat) "k").isSome = true ∧
      DataCacheService.isStale
        (DataCacheService.markStale ([("k", ⟨7, 0, false⟩)] : Cache Nat) "k") "k" 0 = false := by
  decide

/-- Claim C1, amended: markStale on an existing entry sets the stored stale
flag to true, but isStale is computed from age alone, so markStale leaves the
result of isStale unchanged, and isStale(k) is true exactly when an entry
exists with age beyond the staleness threshold; markStale on an absent key is
a no-op that creates no entry. -/
theorem markStale_sets_flag_only {T : Type} (c : Cache T) (k : String) (now : Int) :
    (∀ e, findEntry c k = some e →
        findEntry (DataCacheService.markStale c k) k = some { e with isStale := true }) ∧
      (DataCacheService.isStale (DataCacheService.markStale c k) k now =
        DataCacheService.isStale c k now) ∧
      (DataCacheService.isStale c k now = true ↔
        ∃ e, findEntry c k = some e ∧ now - e.timestamp > STALE_DURATION) ∧
      (findEntry c k = none → DataCacheService.markStale c k = c) := by
  refine ⟨?_, ?_, ?_, ?_⟩
  · intro e hfind
    simp only [DataCacheService.markStale, hfind]
    exact findEntry_mapUpdate_self _ hfind
  · cases hfind : findEntry c k with
    | none => simp [DataCacheService.markStale, hfind]
    | some e =>
      have h1 : findEntry (DataCacheService.markStale c k) k =
          some { e with isStale := true } := by
        simp only [DataCacheService.markStale, hfind]
        exact findEntry_mapUpdate_self _ hfind
      simp [DataCacheService.isStale, h1, hfind]
  · unfold DataCacheService.isStale
    cases hfind : findEntry c k with
    | none => simp
    | some e => simp
  · intro h
    simp [DataCacheService.markStale, h]

/-- Witness for the amended claim C1 at a one-entry cache. -/
theorem markStale_sets_flag_only_witness :
    findEntry (DataCacheService.markStale
        ([("k", ⟨7, 0, false⟩)] : Cache Nat) "k") "k" = some ⟨7, 0, true⟩ :=
  (markStale_sets_flag_only ([("k", ⟨7, 0, false⟩)] : Cache Nat) "k" 0).1 ⟨7, 0, false⟩ rfl

/-- Claim C4, counterexample: on a whitespace-only URL with a first load and
no cached entry, the code shows no loading state (the blank-URL guard fires),
while the claimed resolution order, whose first guard reads the URL as
literally empty, would show one. -/
theorem loading_blank_url_counterexample :
    shouldShowLoading " " true false false false false false = false ∧
      claimedLoadingOrder " " true false false false false false = true := by
  decide

/-- Claim C4, amended: the loading flag follows the claimed resolution order
except that the first guard fires on a URL that is empty or all-whitespace,
not only on a literally empty one; whenever the URL is blank the flag is
false, otherwise it follows the remaining chain, and in particular for the
empty URL the flag is always false. -/
theorem loading_resolution (url : String)
    (initialLoad cachedExists forceRefresh cachedIsStale isConnecting sseLoading : Bool) :
    (urlBlank url = false →
      shouldShowLoading url initialLoad cachedExists forceRefresh
          cachedIsStale isConnecting sseLoading =
        claimedLoadingOrder url initialLoad cachedExists forceRefresh
          cachedIsStale isConnecting sseLoading) ∧
      (urlBlank url = true →
        shouldShowLoading url initialLoad cachedExists forceRefresh
          cachedIsStale isConnecting sseLoading = false) ∧
      shouldShowLoading "" initialLoad cachedExists forceRefresh
          cachedIsStale isConnecting sseLoading = false := by
  refine ⟨?_, ?_, ?_⟩
  · intro h
    have hne : ¬url = "" := by
      intro he
      subst he
      exact absurd h (by decide)
    simp [shouldShowLoading, claimedLoadingOrder, h, hne]
  · intro h
    simp [shouldShowLoading, h]
  · rfl

/-- Witness for the amended claim C4 at a non-blank URL. -/
theorem loading_resolution_witness :
    shouldShowLoading "u" true false false false false false =
      claimedLoadingOrder "u" true false false false false false :=
  (loading_resolution "u" true false false false false false).1 (by decide)

/-- Claim C5: the data field is the latest live message when present and not
under forced refresh, else the cached payload when present and not under
forced refresh, else absent; whenever forced refresh is active it is absent. -/
theorem data_resolution {T : Type} (sseData cachedData : Option T) (fr : Bool) :
    (∀ v, sseData = some v → fr = false → resolveData sseData cachedData fr = some v) ∧
      (∀ v, sseData = none → cachedData = some v → fr = false →
        resolveData sseData cachedData fr = some v) ∧
      (fr = true → resolveData sseData cachedData fr = none) ∧
      (sseData = none → cachedData = none → resolveData sseData cachedData fr = none) := by
  refine ⟨?_, ?_, ?_, ?_⟩
  · intro v hs hf
    subst hs; subst hf
    simp [resolveData]
  · intro v hs hc hf
    subst hs; subst hc; subst hf
    simp [resolveData]
  · intro hf
    subst hf
    simp [resolveData]
  · intro hs hc
    subst hs; subst hc
    simp [resolveData]

/-- Witness for claim C5: live message wins when refresh is not forced. -/
theorem data_resolution_witness :
    resolveData (some 3) (some (5 : Nat)) false = some 3 :=
  (data_resolution (some 3) (some (5 : Nat)) false).1 3 rfl rfl

/-- Claim C7: refreshData marks the cache entry stale and re-arms
initial-load tracking, but the entry stays in the cache with payload and
timestamp unchanged, and (as long as the entry is not past expiry) the
coordinator still serves the cached payload until a new message arrives. -/
theorem refreshData_preserves_entry {T : Type} (s : CoordState T) (key : String)
    (e : CacheEntry T) (now : Int)
    (hfind : findEntry s.cache key = some e)
    (hage : now - e.timestamp ≤ CACHE_DURATION) :
    findEntry (refreshData s key).cache key = some { e with isStale := true } ∧
      (refreshData s key).initialLoad = true ∧
      (refreshData s key).isStaleFlag = true ∧
      (DataCacheService.get (refreshData s key).cache key now).1 = some e.data ∧
      resolveData none (DataCacheService.get (refreshData s key).cache key now).1 false =
        some e.data := by
  have h1 : findEntry (refreshData s key).cache key = some { e with isStale := true } := by
    show findEntry (DataCacheService.markStale s.cache key) key = _
    simp only [DataCacheService.markStale, hfind]
    exact findEntry_mapUpdate_self _ hfind
  have hget : (DataCacheService.get (refreshData s key).cache key now).1 = some e.data := by
    rw [get_of_found now h1]
    rw [if_neg (not_lt.mpr hage)]
  exact ⟨h1, rfl, rfl, hget, by rw [hget]; simp [resolveData]⟩

/-- Witness for claim C7 at a one-entry cache, age 100 ms. -/
theorem refreshData_preserves_entry_witness :
    (DataCacheService.get
        (refreshData (⟨[("k", ⟨7, 0, false⟩)], true, false, false⟩ : CoordState Nat) "k").cache
        "k" 100).1 = some 7 :=
  (refreshData_preserves_entry (⟨[("k", ⟨7, 0, false⟩)], true, false, false⟩ : CoordState Nat)
      "k" ⟨7, 0, false⟩ 100 rfl (by decide)).2.2.2.1

/-- Claim C8: the coordinator's error path only forwards the error to the
caller's handler; the hook state, and in particular every cache entry, is
left unchanged, so cached data keeps being served. -/
theorem onError_preserves_cache {T E A : Type} (handler : E → A) (s : CoordState T) (err : E) :
    (coordOnError handler s err).1 = s ∧
      (coordOnError handler s err).2 = handler err ∧
      ∀ k, findEntry (coordOnError handler s err).1.cache k = findEntry s.cache k :=
  ⟨rfl, rfl, fun _ => rfl⟩

end DredgerSwiper
